import Mathlib

/-!
Verification of the session-management / output-parsing core of the
`stata-ai-fusion` repository (files `stata_session.py` and `graph_cache.py`),
as a shallow embedding in Lean 4.

Text is modelled as `List Char`.  Python's regex-based substitutions are
embedded as explicit left-to-right scanners whose per-position matchers
reproduce the engine's leftmost-alternative / greedy-quantifier semantics for
the concrete patterns appearing in the source.
-/

namespace StataAI

/-- Python strings, modelled as lists of characters. -/
abbrev PyStr := List Char

/-- Convert a Lean string literal to the `PyStr` model. -/
def strLit (s : String) : PyStr := s.data

/-- Python's `\s` / `str.strip` whitespace class (ASCII fragment). -/
def isPyWspace (c : Char) : Bool :=
  c = ' ' || c = '\t' || c = '\n' || c = '\r' || c = '\x0b' || c = '\x0c'

/-- Python `str.lstrip()` with no argument. -/
def pyLStrip (s : PyStr) : PyStr := s.dropWhile isPyWspace

/-- Python `str.rstrip()` with no argument. -/
def pyRStrip (s : PyStr) : PyStr := (s.reverse.dropWhile isPyWspace).reverse

/-- Python `str.strip()` with no argument. -/
def pyStrip (s : PyStr) : PyStr := pyRStrip (pyLStrip s)

/-- Left brace character (written numerically to keep literals plain). -/
def lbrace : Char := '\x7b'

/-- Right brace character. -/
def rbrace : Char := '\x7d'

/-- Consume a literal pattern at the head of the input, returning the rest. -/
def eatLit : PyStr → PyStr → Option PyStr
  | [], s => some s
  | _ :: _, [] => none
  | p :: ps, c :: cs => if c = p then eatLit ps cs else none

/-- Consume one-or-more whitespace characters (`\s+`), returning the rest. -/
def eatWs1 (s : PyStr) : Option PyStr :=
  match s with
  | c :: rest => if isPyWspace c then some (rest.dropWhile isPyWspace) else none
  | [] => none

/-- Consume one-or-more ASCII digits (`\d+`), returning the rest. -/
def eatDigits1 (s : PyStr) : Option PyStr :=
  match s with
  | c :: rest => if c.isDigit then some (rest.dropWhile Char.isDigit) else none
  | [] => none

/-- Consume zero-or-more non-right-brace characters (`[^\x7d]*`). -/
def dropNonRb (s : PyStr) : PyStr := s.dropWhile (fun c => c ≠ rbrace)

/-- Consume the closing right brace (`\x7d`), returning the rest. -/
def closeRb (s : PyStr) : Option PyStr :=
  match s with
  | c :: rest => if c = rbrace then some rest else none
  | [] => none

/-! ### SMCL character escapes — `_SMCL_CHAR_RE` and `_SMCL_CHAR_MAP`

Source: `stata_session.py` lines 73–102.  The regex is
`\x7bc\s+([^\x7d]+)\x7d`; each match is replaced by
`_SMCL_CHAR_MAP.get(key, "")` where `key` is the stripped capture group.
-/

/-- The map `_SMCL_CHAR_MAP` from the source, as an association list. -/
def SMCL_CHAR_MAP : List (PyStr × PyStr) :=
  [ (strLit "|", strLit "|")
  , (strLit "-", strLit "-")
  , (strLit "+", strLit "+")
  , (strLit "TT", strLit "+")
  , (strLit "BT", strLit "+")
  , (strLit "TLC", strLit "+")
  , (strLit "TRC", strLit "+")
  , (strLit "BLC", strLit "+")
  , (strLit "BRC", strLit "+")
  , (strLit "LT", strLit "+")
  , (strLit "RT", strLit "+")
  ]

/-- Association-list lookup (Python `dict.get` / `dict[...]` probing). -/
def assocGet {α : Type} (k : PyStr) : List (PyStr × α) → Option α
  | [] => none
  | (k', v) :: rest => if k = k' then some v else assocGet k rest

/-- Matcher for `_SMCL_CHAR_RE` anchored at the head of the input.  Returns
`(replacement, suffix after the match)` when the regex matches here.  The
engine's greedy split of the bracket content between `\s+` and `[^\x7d]+`
means: the content (everything up to the first right brace) must start with a
whitespace character and have length at least two; the capture group is the
content minus its maximal leading whitespace run, except that for all-space
content the group is just the last character (the `[^\x7d]+` minimum after
backtracking). -/
def charEscAt (s : PyStr) : Option (PyStr × PyStr) :=
  match s with
  | b :: 'c' :: r2 =>
    if b = lbrace then
      match r2 with
      | [] => none
      | w :: _ =>
        if isPyWspace w then
          let content := r2.takeWhile (fun d => d ≠ rbrace)
          match r2.drop content.length with
          | c :: after =>
            if c = rbrace && 2 ≤ content.length then
              let grp :=
                if content.all isPyWspace then content.drop (content.length - 1)
                else content.dropWhile isPyWspace
              some ((assocGet (pyStrip grp) SMCL_CHAR_MAP).getD [], after)
            else none
          | [] => none
        else none
    else none
  | _ => none

/-! ### SMCL tags — `_SMCL_TAG_RE`

Source: `stata_session.py` lines 58–67.  One alternation inside
`\x7b(?:…)\x7d`; alternatives are tried left to right, optional groups
greedily. -/

/-- Alternatives 1–9 of `_SMCL_TAG_RE` (source order):
`res(?:ult)?`, `txt`, `text`, `err(?:or)?`, `cmd`, `inp(?:ut)?`. -/
def tagBodyA (s : PyStr) : Option PyStr :=
  (eatLit (strLit "result") s >>= closeRb) <|>
  (eatLit (strLit "res") s >>= closeRb) <|>
  (eatLit (strLit "txt") s >>= closeRb) <|>
  (eatLit (strLit "text") s >>= closeRb) <|>
  (eatLit (strLit "error") s >>= closeRb) <|>
  (eatLit (strLit "err") s >>= closeRb) <|>
  (eatLit (strLit "cmd") s >>= closeRb) <|>
  (eatLit (strLit "input") s >>= closeRb) <|>
  (eatLit (strLit "inp") s >>= closeRb)

/-- Alternatives `bf`, `it`, `sf`, `com`, `hline(?:\s+\d+)?`,
`dup\s+\d+:[^\x7d]*` of `_SMCL_TAG_RE`. -/
def tagBodyB (s : PyStr) : Option PyStr :=
  (eatLit (strLit "bf") s >>= closeRb) <|>
  (eatLit (strLit "it") s >>= closeRb) <|>
  (eatLit (strLit "sf") s >>= closeRb) <|>
  (eatLit (strLit "com") s >>= closeRb) <|>
  (eatLit (strLit "hline") s >>= eatWs1 >>= eatDigits1 >>= closeRb) <|>
  (eatLit (strLit "hline") s >>= closeRb) <|>
  (eatLit (strLit "dup") s >>= eatWs1 >>= eatDigits1 >>= eatLit (strLit ":") >>=
    (fun t => closeRb (dropNonRb t)))

/-- Alternatives `space\s+\d+`, `col\s+\d+`, `ralign\s+\d+:[^\x7d]*`,
`lalign\s+\d+:[^\x7d]*`, `center\s+\d+:[^\x7d]*` of `_SMCL_TAG_RE`. -/
def tagBodyC (s : PyStr) : Option PyStr :=
  (eatLit (strLit "space") s >>= eatWs1 >>= eatDigits1 >>= closeRb) <|>
  (eatLit (strLit "col") s >>= eatWs1 >>= eatDigits1 >>= closeRb) <|>
  (eatLit (strLit "ralign") s >>= eatWs1 >>= eatDigits1 >>= eatLit (strLit ":") >>=
    (fun t => closeRb (dropNonRb t))) <|>
  (eatLit (strLit "lalign") s >>= eatWs1 >>= eatDigits1 >>= eatLit (strLit ":") >>=
    (fun t => closeRb (dropNonRb t))) <|>
  (eatLit (strLit "center") s >>= eatWs1 >>= eatDigits1 >>= eatLit (strLit ":") >>=
    (fun t => closeRb (dropNonRb t)))

/-- Alternatives `right`, `reset`, `smcl`, `p_end`, `p ` (literal space),
`pstd`, `phang`, `pmore` of `_SMCL_TAG_RE`. -/
def tagBodyD (s : PyStr) : Option PyStr :=
  (eatLit (strLit "right") s >>= closeRb) <|>
  (eatLit (strLit "reset") s >>= closeRb) <|>
  (eatLit (strLit "smcl") s >>= closeRb) <|>
  (eatLit (strLit "p_end") s >>= closeRb) <|>
  (eatLit (strLit "p ") s >>= closeRb) <|>
  (eatLit (strLit "pstd") s >>= closeRb) <|>
  (eatLit (strLit "phang") s >>= closeRb) <|>
  (eatLit (strLit "pmore") s >>= closeRb)

/-- Alternatives `p2colset[^\x7d]*`, `p2col[^\x7d]*`, `p2line[^\x7d]*`,
`marker[^\x7d]*`, `dlgtab[^\x7d]*`, `title[^\x7d]*` of `_SMCL_TAG_RE`. -/
def tagBodyE (s : PyStr) : Option PyStr :=
  (eatLit (strLit "p2colset") s >>= (fun t => closeRb (dropNonRb t))) <|>
  (eatLit (strLit "p2col") s >>= (fun t => closeRb (dropNonRb t))) <|>
  (eatLit (strLit "p2line") s >>= (fun t => closeRb (dropNonRb t))) <|>
  (eatLit (strLit "marker") s >>= (fun t => closeRb (dropNonRb t))) <|>
  (eatLit (strLit "dlgtab") s >>= (fun t => closeRb (dropNonRb t))) <|>
  (eatLit (strLit "title") s >>= (fun t => closeRb (dropNonRb t)))

/-- Alternatives `hi(?:lite)?`, `ul\s+(?:on|off)`, `bind\s+[^\x7d]*`,
`char\s+[^\x7d]*`, `break` of `_SMCL_TAG_RE`. -/
def tagBodyF (s : PyStr) : Option PyStr :=
  (eatLit (strLit "hilite") s >>= closeRb) <|>
  (eatLit (strLit "hi") s >>= closeRb) <|>
  (eatLit (strLit "ul") s >>= eatWs1 >>=
    (fun t => (eatLit (strLit "on") t >>= closeRb) <|> (eatLit (strLit "off") t >>= closeRb))) <|>
  (eatLit (strLit "bind") s >>= eatWs1 >>= (fun t => closeRb (dropNonRb t))) <|>
  (eatLit (strLit "char") s >>= eatWs1 >>= (fun t => closeRb (dropNonRb t))) <|>
  (eatLit (strLit "break") s >>= closeRb)

/-- Try the alternatives of `_SMCL_TAG_RE` (in source order) against the text
following the opening brace; return the suffix after the closing brace on
success. -/
def tagBody (s : PyStr) : Option PyStr :=
  tagBodyA s <|> tagBodyB s <|> tagBodyC s <|> tagBodyD s <|>
  tagBodyE s <|> tagBodyF s

/-- Matcher for `_SMCL_TAG_RE` anchored at the head of the input: an opening
brace followed by a recognized tag body.  The replacement is always empty. -/
def tagAt (s : PyStr) : Option (PyStr × PyStr) :=
  match s with
  | c :: rest =>
    if c = lbrace then (tagBody rest).map (fun t => (([] : PyStr), t))
    else none
  | [] => none

/-! ### `re.sub` as a left-to-right scanner

`scanSubF` walks the text; wherever the anchored matcher fires it emits the
replacement and resumes after the match, otherwise it copies one character.
Both matchers above always consume at least one character, so fuel equal to
the input length makes this exactly `re.sub`. -/

def scanSubF (f : PyStr → Option (PyStr × PyStr)) : Nat → PyStr → PyStr
  | _, [] => []
  | 0, s => s
  | fuel + 1, c :: rest =>
    match f (c :: rest) with
    | some (r, t) => r ++ scanSubF f fuel t
    | none => c :: scanSubF f fuel rest

/-- Python `pattern.sub(replacement, s)` for an anchored matcher `f`. -/
def scanSub (f : PyStr → Option (PyStr × PyStr)) (s : PyStr) : PyStr :=
  scanSubF f s.length s

/-- The function `strip_smcl` from `stata_session.py` lines 91–102: replace `\x7bc …\x7d`
character escapes first, then remove all remaining recognized SMCL tags. -/
def strip_smcl (text : PyStr) : PyStr :=
  scanSub tagAt (scanSub charEscAt text)

/-! ### `str.splitlines` -/

/-- Python's line-break characters for `str.splitlines`. -/
def isLineBrk (c : Char) : Bool :=
  c = '\n' || c = '\r' || c = '\x0b' || c = '\x0c' ||
  c = '\x1c' || c = '\x1d' || c = '\x1e' || c = '\x85' ||
  c = '\u2028' || c = '\u2029'

/-- Worker for `pySplitlines` carrying the current line (reversed). -/
def slGo (acc : PyStr) : PyStr → List PyStr
  | [] => [acc.reverse]
  | '\r' :: '\n' :: rest =>
    acc.reverse :: (match rest with | [] => [] | _ :: _ => slGo [] rest)
  | c :: rest =>
    if isLineBrk c then
      acc.reverse :: (match rest with | [] => [] | _ :: _ => slGo [] rest)
    else slGo (c :: acc) rest

/-- Python `str.splitlines()` (without `keepends`). -/
def pySplitlines (s : PyStr) : List PyStr :=
  match s with
  | [] => []
  | _ :: _ => slGo [] s

/-! ### Error detection — `_detect_error` and `ERROR_PATTERNS`

Source: `stata_session.py` lines 109–156. -/

/-- Parse a decimal digit string (`int` on the capture group of `r(\d+)`). -/
def digitsToNat (ds : PyStr) : Nat :=
  ds.foldl (fun n c => 10 * n + (c.toNat - '0'.toNat)) 0

/-- The regex `_ERROR_CODE_RE` (`r\(\d+\)`) anchored at the head of the input: the
parsed numeric code when the token starts here. -/
def codeTokAt : PyStr → Option Nat
  | r :: c :: r2 =>
    if r = 'r' ∧ c = '(' then
      let ds := r2.takeWhile Char.isDigit
      if ds.isEmpty then none
      else
        match r2.drop ds.length with
        | d :: _ => if d = ')' then some (digitsToNat ds) else none
        | [] => none
    else none
  | _ => none

/-- Search `_ERROR_CODE_RE.search`: the code of the leftmost `r(\d+)` token. -/
def findCodeTok : PyStr → Option Nat
  | [] => none
  | c :: rest =>
    match codeTokAt (c :: rest) with
    | some v => some v
    | none => findCodeTok rest

/-- Gather `error_msg_parts` exactly as the loop in `_detect_error` does:
walk the lines, stop at the first line whose stripped form contains an
`r(\d+)` token, and collect the stripped non-blank lines seen before it. -/
def msgParts : List PyStr → List PyStr
  | [] => []
  | l :: rest =>
    let st := pyStrip l
    if (findCodeTok st).isSome then []
    else if st.isEmpty then msgParts rest
    else st :: msgParts rest

/-- Decimal rendering of a natural number (Python `str(int)` / f-string). -/
def natToStr (n : Nat) : PyStr := (toString n).data

/-! A small backtracking regex core for the fixed phrase patterns of
`ERROR_PATTERNS`: character classes, sequencing, and greedy star, evaluated
in continuation-passing style with Python's preference order (greedy
quantifiers, first complete match wins). -/

inductive RE
  | eps
  | cls (p : Char → Bool)
  | seq (a b : RE)
  | star (p : Char → Bool)

/-- Greedy star over a character class: consume as much as possible, then
backtrack into the continuation. -/
def starGreedy (p : Char → Bool) (k : PyStr → Option PyStr) : PyStr → Option PyStr
  | [] => k []
  | c :: rest =>
    (if p c then starGreedy p k rest else none) <|> k (c :: rest)

/-- Match `r` against the start of `s`; `k` receives the suffix after the
consumed part; the first accepted continuation wins. -/
def matchRE : RE → PyStr → (PyStr → Option PyStr) → Option PyStr
  | .eps, s, k => k s
  | .cls p, s, k =>
    match s with
    | c :: rest => if p c then k rest else none
    | [] => none
  | .seq a b, s, k => matchRE a s (fun t => matchRE b t k)
  | .star p, s, k => starGreedy p k s

/-- Python `pattern.search(s)`: group 0 of the leftmost match. -/
def reSearch (r : RE) : PyStr → Option PyStr
  | [] => (matchRE r [] some).map (fun _ => ([] : PyStr))
  | c :: rest =>
    match matchRE r (c :: rest) some with
    | some t => some ((c :: rest).take ((c :: rest).length - t.length))
    | none => reSearch r rest

/-- One-or-more of a class (`\s+`, `.+`, …). -/
def rePlus (p : Char → Bool) : RE := .seq (.cls p) (.star p)

/-- A case-insensitive literal (ASCII case folding, matching the
`re.IGNORECASE` behaviour on the source's ASCII phrases). -/
def reLitCI : PyStr → RE
  | [] => .eps
  | c :: rest => .seq (.cls (fun d => d.toLower = c.toLower)) (reLitCI rest)

/-- Dot (`.`) outside DOTALL: any character except newline. -/
def dotCls (c : Char) : Bool := c ≠ '\n'

/-- Pattern `variable\s+.+\s+not found` (IGNORECASE). -/
def varNotFoundRE : RE :=
  .seq (reLitCI (strLit "variable"))
    (.seq (rePlus isPyWspace)
      (.seq (rePlus dotCls)
        (.seq (rePlus isPyWspace) (reLitCI (strLit "not found")))))

/-- The slice `ERROR_PATTERNS[1:]` — the phrase patterns, in source order. -/
def ERROR_PATTERNS_TAIL : List RE :=
  [ reLitCI (strLit "no observations")
  , varNotFoundRE
  , reLitCI (strLit "type mismatch")
  , reLitCI (strLit "conformability error")
  , reLitCI (strLit "op.sys refuses to")
  , reLitCI (strLit "could not find file")
  , reLitCI (strLit "no room to add more")
  ]

/-- Scan the phrase patterns in order; the first match's group 0 is the
message. -/
def phraseScan : List RE → PyStr → Option PyStr
  | [], _ => none
  | r :: rs, out =>
    match reSearch r out with
    | some g => some g
    | none => phraseScan rs out

/-- The function `_detect_error` from `stata_session.py` lines 124–156. -/
def detect_error (output : PyStr) : Option PyStr × Option Nat :=
  match findCodeTok output with
  | some code =>
    let parts := msgParts (pySplitlines output)
    let msg :=
      match parts.getLast? with
      | some m => m
      | none => strLit "Stata error r(" ++ natToStr code ++ strLit ")"
    (some msg, some code)
  | none =>
    match phraseScan ERROR_PATTERNS_TAIL output with
    | some g => (some g, none)
    | none => (none, none)

/-! ### Graph cache — `graph_cache.py`

Files are modelled as entries of a flat watched directory: a name, a
modification time (an ordered rational, abstracting the float mtime), and
the byte content (naturals below 256). -/

/-- A file of the watched scratch directory. -/
structure DirFile where
  name : PyStr
  mtime : ℚ
  bytes : List Nat
deriving DecidableEq

/-- The watched directory's current contents. -/
abbrev DirState := List DirFile

/-- Python `path.read_bytes()`: the bytes of the named file, or absent. -/
def fsRead (dir : DirState) (p : PyStr) : Option (List Nat) :=
  (dir.find? (fun f => f.name = p)).map DirFile.bytes

/-- The dict `_SUPPORTED_EXTENSIONS` from `graph_cache.py` lines 24–29 (in source
order). -/
def SUPPORTED_EXTENSIONS : List (PyStr × PyStr) :=
  [ (strLit ".png", strLit "image/png")
  , (strLit ".pdf", strLit "application/pdf")
  , (strLit ".svg", strLit "image/svg+xml")
  , (strLit ".gph", strLit "application/x-stata-graph")
  ]

/-- The supported extensions, in iteration order. -/
def supportedExts : List PyStr := SUPPORTED_EXTENSIONS.map Prod.fst

/-- Python `pathlib.PurePath.name`: the final path component. -/
def pathName (p : PyStr) : PyStr := (p.reverse.takeWhile (fun c => c ≠ '/')).reverse

/-- Python `pathlib.PurePath.suffix`: `name[i:]` for `i = name.rfind('.')` when
`0 < i < len(name) - 1`, else empty. -/
def pathSuffix (p : PyStr) : PyStr :=
  let name := pathName p
  let ext := name.reverse.takeWhile (fun c => c ≠ '.')
  if ext.length = name.length then []
  else if ext.length = name.length - 1 then []
  else if ext.length = 0 then []
  else '.' :: ext.reverse

/-- Python `str.lower()` (ASCII case folding). -/
def pyLower (s : PyStr) : PyStr := s.map Char.toLower

/-- Python `str.endswith` / what `glob("*" + ext)` selects in a flat directory. -/
def strEndsWith (s suf : PyStr) : Bool := (eatLit suf.reverse s.reverse).isSome

/-- A graph file produced by Stata (dataclass `GraphArtifact`). -/
structure GraphArtifact where
  path : PyStr
  format : PyStr
  base64 : PyStr
  width : Option Nat := none
  height : Option Nat := none
deriving DecidableEq

/-- The standard base64 alphabet. -/
def b64Alphabet : PyStr :=
  strLit "ABCDEFGHIJKLMNOPQRSTUVWXYZabcdefghijklmnopqrstuvwxyz0123456789+/"

/-- The base64 digit for a 6-bit value. -/
def b64Char (n : Nat) : Char := b64Alphabet.getD n 'A'

/-- Python `base64.b64encode` on a byte list (result as text). -/
def base64Encode : List Nat → PyStr
  | [] => []
  | [a] => [b64Char (a / 4), b64Char (a % 4 * 16), '=', '=']
  | [a, b] => [b64Char (a / 4), b64Char (a % 4 * 16 + b / 16), b64Char (b % 16 * 4), '=']
  | a :: b :: c :: rest =>
    b64Char (a / 4) :: b64Char (a % 4 * 16 + b / 16) ::
      b64Char (b % 16 * 4 + c / 64) :: b64Char (c % 64) :: base64Encode rest

/-- The PNG signature, `\x89PNG\r\n\x1a\n`. -/
def pngMagic : List Nat := [0x89, 0x50, 0x4E, 0x47, 0x0D, 0x0A, 0x1A, 0x0A]

/-- Big-endian 32-bit word from four bytes. -/
def beU32 : List Nat → Nat
  | [a, b, c, d] => ((a * 256 + b) * 256 + c) * 256 + d
  | _ => 0

/-- The function `_png_dimensions` from `graph_cache.py` lines 52–74, over the file's
bytes: read the first 24 bytes; on a short header or wrong signature return
absent dimensions; otherwise the two big-endian words at offsets 16 and 20. -/
def pngDimensions (bytes : List Nat) : Option Nat × Option Nat :=
  let header := bytes.take 24
  if header.length < 24 then (none, none)
  else if header.take 8 ≠ pngMagic then (none, none)
  else (some (beU32 ((header.drop 16).take 4)), some (beU32 (header.drop 20)))

/-- The failure modes of `GraphCache.encode_graph`: `ValueError` for an
unsupported extension, `FileNotFoundError` (from `read_bytes`) for a missing
file. -/
inductive EncodeErr
  | valueError
  | fileNotFound
deriving DecidableEq

/-- Equality of encode outcomes is decidable (for concrete evaluation). -/
instance {ε α : Type} [DecidableEq ε] [DecidableEq α] : DecidableEq (Except ε α) :=
  fun a b =>
    match a, b with
    | .error e, .error e' =>
      if h : e = e' then .isTrue (by rw [h]) else .isFalse (by simp [h])
    | .ok v, .ok v' =>
      if h : v = v' then .isTrue (by rw [h]) else .isFalse (by simp [h])
    | .error _, .ok _ => .isFalse (by simp)
    | .ok _, .error _ => .isFalse (by simp)

/-- The static method `GraphCache.encode_graph` from `graph_cache.py` lines 137–172. -/
def encode_graph (dir : DirState) (p : PyStr) : Except EncodeErr GraphArtifact :=
  let suffix := pyLower (pathSuffix p)
  if ¬ (assocGet suffix SUPPORTED_EXTENSIONS).isSome then .error .valueError
  else
    match fsRead dir p with
    | none => .error .fileNotFound
    | some raw =>
      let encoded := base64Encode raw
      let fmt := suffix.dropWhile (fun c => c = '.')
      let wh := if suffix = strLit ".png" then pngDimensions raw else (none, none)
      .ok ⟨p, fmt, encoded, wh.1, wh.2⟩

/-- One extension's portion of `GraphCache._scan` from `graph_cache.py` lines 178–192: for each
supported extension (in dict order), every file of the watched directory
matching `*ext`, mapped to its mtime.  (All modelled entries are plain,
stat-able files.) -/
def bucket (dir : DirState) (ext : PyStr) : List (PyStr × ℚ) :=
  (dir.filter (fun f => strEndsWith f.name ext)).map (fun f => (f.name, f.mtime))

/-- The scan of `GraphCache._scan`, assembled over the extensions in dict
order. -/
def scanDir (dir : DirState) : List (PyStr × ℚ) :=
  (supportedExts.map (bucket dir)).flatten

/-- The per-path body of the `detect_changes` loop: encode the path when it
is new (absent from the snapshot) or its mtime increased; an encode failure
is caught and the artifact dropped (`Except.toOption`). -/
def changeCheck (snapshot : List (PyStr × ℚ)) (dir : DirState) (pm : PyStr × ℚ) :
    Option GraphArtifact :=
  match assocGet pm.1 snapshot with
  | none => (encode_graph dir pm.1).toOption
  | some prev => if prev < pm.2 then (encode_graph dir pm.1).toOption else none

/-- The function `GraphCache.detect_changes` from `graph_cache.py` lines
109–131, as a function of the stored snapshot and the directory contents:
the artifacts of every new-or-modified current file, together with the new
stored snapshot — the freshly computed scan, replacing the old one
wholesale. -/
def detect_changes (snapshot : List (PyStr × ℚ)) (dir : DirState) :
    List GraphArtifact × List (PyStr × ℚ) :=
  let current := scanDir dir
  (current.filterMap (changeCheck snapshot dir), current)

/-- The method `GraphCache.take_snapshot` from `graph_cache.py` lines 100–107. -/
def take_snapshot (dir : DirState) : List (PyStr × ℚ) := scanDir dir

/-! ### Graph-export injection — `maybe_inject_graph_export`

Source: `graph_cache.py` lines 199–269.  Both regexes are VERBOSE with
`(?:^|\n)[ \t]*(?:qui(?:etly)?[ \t]+)?` before the command word(s). -/

/-- The `[ \t]` class of the injection regexes. -/
def isSpTab (c : Char) : Bool := c = ' ' || c = '\t'

/-- Python's `\w` (ASCII fragment), for `\b` boundaries. -/
def wordChar (c : Char) : Bool := c.isAlphanum || c = '_'

/-- Word boundary after a keyword: next char absent or not a word char. -/
def wbOk : PyStr → Bool
  | [] => true
  | c :: _ => !wordChar c

/-- A literal keyword followed by a `\b` boundary. -/
def litWb (kw : String) (s : PyStr) : Bool :=
  match eatLit (strLit kw) s with
  | some t => wbOk t
  | none => false

/-- The graph-command alternation of `_GRAPH_CMD_RE` (source order;
`tw(?:oway)?` unfolds to `twoway` before `tw`, `histogram` before `hist`). -/
def graphKwAt (s : PyStr) : Bool :=
  litWb "graph" s || litWb "twoway" s || litWb "tw" s || litWb "scatter" s ||
  litWb "line" s || litWb "histogram" s || litWb "hist" s || litWb "kdensity" s ||
  litWb "qnorm" s || litWb "pnorm" s || litWb "rvfplot" s || litWb "avplot" s ||
  litWb "lvr2plot" s || litWb "marginsplot" s || litWb "coefplot" s

/-- Pattern `graph[ \t]+export\b`, the body of `_HAS_EXPORT_RE`. -/
def exportKwAt (s : PyStr) : Bool :=
  match eatLit (strLit "graph") s with
  | some (c :: u) =>
    isSpTab c &&
      (match eatLit (strLit "export") ((c :: u).dropWhile isSpTab) with
       | some v => wbOk v
       | none => false)
  | _ => false

/-- The optional `qui(?:etly)?[ \t]+` modifier followed by `k`. -/
def quietThen (k : PyStr → Bool) (t : PyStr) : Bool :=
  (match eatLit (strLit "quietly") t with
   | some (c :: u) => isSpTab c && k ((c :: u).dropWhile isSpTab)
   | _ => false) ||
  (match eatLit (strLit "qui") t with
   | some (c :: u) => isSpTab c && k ((c :: u).dropWhile isSpTab)
   | _ => false)

/-- Pattern `[ \t]*(?:qui(?:etly)?[ \t]+)?` then `k`, at one line start. -/
def atLineStart (k : PyStr → Bool) (s : PyStr) : Bool :=
  let t := s.dropWhile isSpTab
  quietThen k t || k t

/-- Try `atLineStart` after every newline of the text. -/
def nlSearch (k : PyStr → Bool) : PyStr → Bool
  | [] => false
  | c :: rest => (c = '\n' && atLineStart k rest) || nlSearch k rest

/-- Python `pattern.search(code)` truthiness for the `(?:^|\n)`-anchored injection
regexes: a match at the string start or after any newline. -/
def lineStartSearch (k : PyStr → Bool) (code : PyStr) : Bool :=
  atLineStart k code || nlSearch k code

/-- The function `maybe_inject_graph_export` from `graph_cache.py` lines 239–269.  The
unique timestamp `int(time.time() * 1000)` is a parameter; the export path is
`tmpdir / f"stata_graph_{timestamp}.png"` rendered with `/` separators. -/
def maybe_inject_graph_export (code : PyStr) (tmpdir : PyStr) (timestamp : Nat) : PyStr :=
  if lineStartSearch exportKwAt code then code
  else if ¬ lineStartSearch graphKwAt code then code
  else
    let export_path := tmpdir ++ strLit "/stata_graph_" ++ natToStr timestamp ++ strLit ".png"
    pyRStrip code ++ strLit "\nquietly graph export \"" ++ export_path ++
      strLit "\", width(2000) replace"

/-! ### `ExecutionResult` -/

/-- The `ExecutionResult` dataclass, `stata_session.py` lines 194–209.
`execution_time` abstracts the float as a rational; `log_path` as the path
string. -/
structure ExecutionResult where
  output : PyStr
  return_code : Int
  error_message : Option PyStr := none
  error_code : Option Nat := none
  graphs : List GraphArtifact := []
  execution_time : ℚ := 0
  log_path : Option PyStr := none
deriving DecidableEq

/-- The `success` property: `self.return_code == 0`. -/
def ExecutionResult.success (r : ExecutionResult) : Bool := r.return_code == 0

/-- The result composition of `StataSession.execute` lines 427–453 (shared
verbatim by `BatchSession.execute` lines 625–651): classify the cleaned
output, derive the return code from the presence of error signals, package
everything. -/
def composeResult (cleaned : PyStr) (graphs : List GraphArtifact) (elapsed : ℚ)
    (log_path : Option PyStr) : ExecutionResult :=
  let ec := detect_error cleaned
  let return_code : Int := if ec.2 = none ∧ ec.1 = none then 0 else 1
  ⟨cleaned, return_code, ec.1, ec.2, graphs, elapsed, log_path⟩

/-! ### Interactive session — `StataSession`

The pexpect process is abstracted to a handle identity (`procId`, `none` when
`self._process is None`; a fresh spawn gets a fresh identity) and a liveness
bit.  The scratch directory's contents at snapshot and at detection time, the
read-until-prompt outcome, and the elapsed wall time are inputs of the
`execute` step. -/

/-- Outcome of `_run_do_file`'s read-until-prompt loop: accumulated raw
output on the primary-prompt match, `pexpect.TIMEOUT`, or `pexpect.EOF`. -/
inductive ReadOutcome
  | ok (raw : PyStr)
  | timedOut
  | eofHit
deriving DecidableEq

/-- The mutable state of a `StataSession`. -/
structure StataSessionState where
  procId : Option Nat
  procLive : Bool
  started : Bool
  tmpdirOk : Bool
  logBuf : List PyStr
  cacheSnap : List (PyStr × ℚ)
deriving DecidableEq

/-- Property `StataSession.is_alive`, lines 319–327: a present, live process. -/
def StataSessionState.is_alive (s : StataSessionState) : Bool :=
  s.procId.isSome && s.procLive

/-- Method `StataSession._ensure_alive`, lines 333–345: when dead, recreate the
scratch dir (and a fresh empty `GraphCache`) if it was removed, then
`start()` — which spawns a fresh process and marks the session started. -/
def ensure_alive (s : StataSessionState) (freshId : Nat) : StataSessionState :=
  if s.is_alive then s
  else
    let s₁ := if s.tmpdirOk then s else { s with tmpdirOk := true, cacheSnap := [] }
    { s₁ with procId := some freshId, procLive := true, started := true }

/-- Methods `StataSession.get_log` / `BatchSession.get_log`: newline-join of the
accumulated per-command outputs. -/
def get_log (logBuf : List PyStr) : PyStr := List.intercalate (strLit "\n") logBuf

/-- Python `sub in s` (substring substring containment). -/
def strContains : PyStr → PyStr → Bool
  | [], sub => (eatLit sub []).isSome
  | c :: rest, sub => (eatLit sub (c :: rest)).isSome || strContains rest sub

/-- The line-filtering loop of `_clean_do_output`, lines 486–512, with the
`skip_do_echo` flag threaded through. -/
def cleanLines (do_file do_stem : PyStr) : Bool → List PyStr → List PyStr
  | _, [] => []
  | skipEcho, l :: rest =>
    let st := pyStrip l
    if skipEcho &&
        ((eatLit (strLit "do \"" ++ do_file) st).isSome ||
          (eatLit (strLit "do ") st).isSome || st.isEmpty) then
      cleanLines do_file do_stem
        (if (eatLit (strLit "do ") st).isSome then false else skipEcho) rest
    else if st = strLit "end of do-file" then
      cleanLines do_file do_stem skipEcho rest
    else if (eatLit (strLit "> ") st).isSome && strContains st do_stem then
      cleanLines do_file do_stem skipEcho rest
    else if (eatLit (strLit ". ") st).isSome then
      cleanLines do_file do_stem skipEcho rest
    else l :: cleanLines do_file do_stem skipEcho rest

/-- The trailing `while cleaned and cleaned[-1].strip() == "."` pop loop. -/
def dropTrailingDotLines (ls : List PyStr) : List PyStr :=
  (ls.reverse.dropWhile (fun l => pyStrip l = strLit ".")).reverse

/-- Method `StataSession._clean_do_output`, lines 485–518. -/
def clean_do_output (output : PyStr) (do_file do_stem : PyStr) : PyStr :=
  pyStrip (List.intercalate (strLit "\n")
    (dropTrailingDotLines (cleanLines do_file do_stem true (pySplitlines output))))

/-- One `StataSession.execute` call, lines 351–453.  `freshId` is the handle
identity a restart would create; `dirBefore`/`dirAfter` are the scratch
directory contents at snapshot time and at artifact-detection time; the
injected code's effect on the process is carried by `outcome` and
`dirAfter`. -/
def StataSession.execute (s : StataSessionState) (freshId : Nat) (tmpdir : PyStr)
    (timestamp : Nat) (uuidHex : PyStr) (code : PyStr) (timeout : Nat)
    (dirBefore dirAfter : DirState) (outcome : ReadOutcome) (elapsed : ℚ) :
    ExecutionResult × StataSessionState :=
  let s₀ := ensure_alive s freshId
  let _submitted := maybe_inject_graph_export code tmpdir timestamp
  let s₁ := { s₀ with cacheSnap := take_snapshot dirBefore }
  let do_file := tmpdir ++ strLit "/_cmd_" ++ uuidHex ++ strLit ".do"
  let do_stem := strLit "_cmd_" ++ uuidHex
  match outcome with
  | .timedOut =>
    (⟨[], 1, some (strLit "Command timed out after " ++ natToStr timeout ++ strLit "s"),
        none, [], elapsed, none⟩, s₁)
  | .eofHit =>
    (⟨[], 1, some (strLit "Stata process terminated unexpectedly"),
        none, [], elapsed, none⟩,
      { s₁ with procId := none, procLive := false, started := false })
  | .ok raw =>
    let cleaned := clean_do_output (strip_smcl raw) do_file do_stem
    let dc := detect_changes s₁.cacheSnap dirAfter
    (composeResult cleaned dc.1 elapsed none,
      { s₁ with cacheSnap := dc.2, logBuf := s₁.logBuf ++ [cleaned] })

/-! ### Batch session — `BatchSession` -/

/-- Method `BatchSession._run_batch`, lines 653–668: run the subprocess (its
captured stdout/stderr are bound to the call's result, which the source
discards), then return the log file's text when the log file exists, and the
empty string otherwise. -/
def run_batch (logContent : Option PyStr) (_capturedOut _capturedErr : PyStr) : PyStr :=
  match logContent with
  | some text => text
  | none => []

/-! ### Session registry — `SessionManager` -/

/-- What `get_or_create` observes of a stored session: its liveness and its
output log.  A freshly constructed-and-started session has an empty log. -/
structure MgrSessionState where
  alive : Bool
  logBuf : List PyStr
deriving DecidableEq

/-- Method `SessionManager.get_or_create`, lines 717–758: an existing live session
is returned as is; an existing dead one is deleted and a brand-new session is
created, started and stored; a missing id gets a brand-new session. -/
def get_or_create (sessions : List (PyStr × MgrSessionState)) (sid : PyStr) :
    MgrSessionState × List (PyStr × MgrSessionState) :=
  match assocGet sid sessions with
  | some sess =>
    if ¬ sess.alive then
      let removed := sessions.filter (fun kv => ¬ (kv.1 = sid))
      let fresh : MgrSessionState := ⟨true, []⟩
      (fresh, removed ++ [(sid, fresh)])
    else (sess, sessions)
  | none =>
    let fresh : MgrSessionState := ⟨true, []⟩
    (fresh, sessions ++ [(sid, fresh)])

/-! ### Statement-side definitions for the claims -/

/-- A text in which neither SMCL matcher fires at any position: stripping it
again can change nothing. -/
def smclMatchFree (s : PyStr) : Bool :=
  s.tails.all (fun t => (charEscAt t).isNone && (tagAt t).isNone)

/-- The generic fallback message of the coded-error branch,
`f"Stata error r(\x7bcode\x7d)"`. -/
def genericCodeMsg (c : Nat) : PyStr :=
  strLit "Stata error r(" ++ natToStr c ++ strLit ")"

/-- The claim's description of the coded-error message: among the lines
preceding the first line that contains an `r(\d+)` token, the last one whose
stripped content is non-blank (the message is that stripped content). -/
def lastNonBlankBefore (output : PyStr) : Option PyStr :=
  ((((pySplitlines output).takeWhile
      (fun l => (findCodeTok l).isNone)).map pyStrip).filter
    (fun st => !st.isEmpty)).getLast?

/-! ## Helper lemmas -/

/-- A scan pass over a text in which the matcher never fires is the
identity. -/
theorem scanSubF_of_clear (f : PyStr → Option (PyStr × PyStr)) :
    ∀ (n : Nat) (s : PyStr), (∀ t ∈ s.tails, f t = none) → scanSubF f n s = s := by
  intro n
  induction n with
  | zero =>
    intro s h
    cases s <;> rfl
  | succ n ih =>
    intro s h
    cases s with
    | nil => rfl
    | cons c rest =>
      have hself : (c :: rest) ∈ (c :: rest).tails := by
        rw [List.mem_tails]
      have hf : f (c :: rest) = none := h _ hself
      have hstep : scanSubF f (n + 1) (c :: rest) =
          match f (c :: rest) with
          | some (r, t) => r ++ scanSubF f n t
          | none => c :: scanSubF f n rest := rfl
      rw [hstep, hf]
      have hrest : ∀ t ∈ rest.tails, f t = none := by
        intro t ht
        refine h t ?_
        rw [List.mem_tails] at ht ⊢
        exact ht.trans (List.suffix_cons c rest)
      exact congrArg (c :: ·) (ih rest hrest)

/-- Restarting a dead session inside `_ensure_alive` leaves the output log
untouched. -/
theorem ensure_alive_logBuf (s : StataSessionState) (freshId : Nat) :
    (ensure_alive s freshId).logBuf = s.logBuf := by
  unfold ensure_alive
  by_cases h : s.is_alive <;> by_cases h2 : s.tmpdirOk <;> simp [h, h2]

/-! ## Claims -/

/-- C1 (corrected).  The spec claims `success == true` iff both
`error_message` and `error_code` are absent for every constructed result; in
the code `success` is `return_code == 0`, so the iff holds only for results
whose return code was derived from the error fields — as `execute` derives it
(`composeResult`) — not for arbitrary field combinations. -/
theorem C1_success_semantics :
    (∀ r : ExecutionResult, r.success = true ↔ r.return_code = 0) ∧
    (∀ cleaned graphs elapsed lp,
      (composeResult cleaned graphs elapsed lp).success = true ↔
        ((composeResult cleaned graphs elapsed lp).error_message = none ∧
          (composeResult cleaned graphs elapsed lp).error_code = none)) := by
  constructor
  · intro r
    simp [ExecutionResult.success]
  · intro cleaned graphs elapsed lp
    simp only [composeResult, ExecutionResult.success]
    by_cases h : (detect_error cleaned).2 = none ∧ (detect_error cleaned).1 = none
    · simp [h, h.1, h.2]
    · simp only [if_neg h]
      constructor
      · intro hfalse
        exact absurd hfalse (by decide)
      · intro hc
        exact absurd ⟨hc.2, hc.1⟩ h

/-- C1 counterexample: a directly constructed result with `return_code = 0`
and a present `error_message` has `success = true`, refuting the claimed
equivalence for arbitrary constructions. -/
theorem C1_success_cex :
    (ExecutionResult.mk [] 0 (some (strLit "boom")) none [] 0 none).success = true ∧
    (ExecutionResult.mk [] 0 (some (strLit "boom")) none [] 0 none).error_message ≠ none := by
  constructor
  · rfl
  · intro h
    cases h

/-- C2 (corrected).  The claim says that when no log file appears,
`_run_batch`'s output falls back to the process's captured standard streams;
in the code the `subprocess.run` result (which holds the captured streams) is
discarded and the empty string is returned.  Amended: with a log file the log
text is returned; without one the output is empty, whatever was captured. -/
theorem C2_run_batch_output :
    (∀ t out err, run_batch (some t) out err = t) ∧
    (∀ out err, run_batch none out err = []) :=
  ⟨fun _ _ _ => rfl, fun _ _ => rfl⟩

/-- C2 counterexample: with no log file and non-empty captured stdout, the
returned output is empty, not the captured stream text. -/
theorem C2_run_batch_cex :
    run_batch none (strLit "captured stream text") (strLit "") = strLit "" ∧
    strLit "captured stream text" ≠ strLit "" := by
  exact ⟨rfl, by decide⟩

/-- C3 (corrected).  A dead session restarted through its own
`_ensure_alive` keeps its output log; but a dead session reached through
`SessionManager.get_or_create` is deleted and replaced by a brand-new session
whose log is empty, so the log is not preserved on that path. -/
theorem C3_restart_log_semantics :
    (∀ (s : StataSessionState) (freshId : Nat),
      (ensure_alive s freshId).logBuf = s.logBuf) ∧
    (∀ (sessions : List (PyStr × MgrSessionState)) (sid : PyStr) (sess : MgrSessionState),
      assocGet sid sessions = some sess → sess.alive = false →
        (get_or_create sessions sid).1.logBuf = []) := by
  constructor
  · exact ensure_alive_logBuf
  · intro sessions sid sess h halive
    unfold get_or_create
    rw [h]
    simp [halive]

/-- C3 witness: the two branches at concrete states. -/
theorem C3_restart_log_semantics_witness :
    (ensure_alive ⟨some 1, false, true, true, [strLit "kept"], []⟩ 2).logBuf
        = [strLit "kept"] ∧
    (get_or_create [(strLit "s1", ⟨false, [strLit "old"]⟩)] (strLit "s1")).1.logBuf = [] :=
  ⟨C3_restart_log_semantics.1 ⟨some 1, false, true, true, [strLit "kept"], []⟩ 2,
    C3_restart_log_semantics.2 [(strLit "s1", ⟨false, [strLit "old"]⟩)] (strLit "s1")
      ⟨false, [strLit "old"]⟩ (by decide) rfl⟩

/-- C3 counterexample: a dead session with a non-empty log, reached through
the registry's `get_or_create`, comes back with an empty log — the prior
`get_log` text is lost. -/
theorem C3_registry_log_cex :
    (get_or_create [(strLit "s1", ⟨false, [strLit "old output"]⟩)] (strLit "s1")).1.logBuf
        = [] ∧
    get_log [strLit "old output"] ≠ get_log [] := by
  exact ⟨rfl, by decide⟩

/-- C7 (corrected).  The unchanged cases hold as claimed; in the injection
case the appended export line (scratch-directory path, `width(2000)`,
`replace`) is appended to the right-stripped original code, not to the
original code itself. -/
theorem C7_inject_cases :
    ∀ (code tmpdir : PyStr) (ts : Nat),
      (lineStartSearch exportKwAt code = true →
        maybe_inject_graph_export code tmpdir ts = code) ∧
      (lineStartSearch exportKwAt code = false → lineStartSearch graphKwAt code = false →
        maybe_inject_graph_export code tmpdir ts = code) ∧
      (lineStartSearch exportKwAt code = false → lineStartSearch graphKwAt code = true →
        maybe_inject_graph_export code tmpdir ts =
          pyRStrip code ++ strLit "\nquietly graph export \"" ++
            (tmpdir ++ strLit "/stata_graph_" ++ natToStr ts ++ strLit ".png") ++
            strLit "\", width(2000) replace") := by
  intro code tmpdir ts
  refine ⟨fun h1 => ?_, fun h1 h2 => ?_, fun h1 h2 => ?_⟩
  · unfold maybe_inject_graph_export
    simp [h1]
  · unfold maybe_inject_graph_export
    simp [h1, h2]
  · unfold maybe_inject_graph_export
    simp [h1, h2, List.append_assoc]

/-- C7 witness: the injection branch at a concrete drawing command. -/
theorem C7_inject_cases_witness :
    maybe_inject_graph_export (strLit "scatter x y ") (strLit "/tmp/s1") 42 =
      pyRStrip (strLit "scatter x y ") ++ strLit "\nquietly graph export \"" ++
        (strLit "/tmp/s1" ++ strLit "/stata_graph_" ++ natToStr 42 ++ strLit ".png") ++
        strLit "\", width(2000) replace" :=
  (C7_inject_cases (strLit "scatter x y ") (strLit "/tmp/s1") 42).2.2 (by decide) (by decide)

/-- C7 counterexample: for a drawing command with trailing whitespace the
result is not the original code with the export line appended — the trailing
whitespace is stripped first. -/
theorem C7_inject_cex :
    maybe_inject_graph_export (strLit "scatter x y ") (strLit "/tmp/s1") 42 ≠
      strLit "scatter x y " ++ strLit "\nquietly graph export \"" ++
        (strLit "/tmp/s1" ++ strLit "/stata_graph_" ++ natToStr 42 ++ strLit ".png") ++
        strLit "\", width(2000) replace" := by
  decide

/-- C8 (confirmed).  When the read-until-prompt raises `pexpect.TIMEOUT`,
`execute` returns (rather than raising) a failure result with return code 1,
an error message naming the timeout, and no artifacts; the process handle in
place after the liveness check is left exactly as it was (same identity,
still live, no restart), and the session log is untouched. -/
theorem C8_timeout_result :
    ∀ (s : StataSessionState) (freshId : Nat) (tmpdir : PyStr) (ts : Nat)
      (uuidHex code : PyStr) (timeout : Nat) (dirB dirA : DirState) (elapsed : ℚ),
      (StataSession.execute s freshId tmpdir ts uuidHex code timeout dirB dirA
          .timedOut elapsed).1 =
        ⟨[], 1, some (strLit "Command timed out after " ++ natToStr timeout ++ strLit "s"),
          none, [], elapsed, none⟩ ∧
      (StataSession.execute s freshId tmpdir ts uuidHex code timeout dirB dirA
          .timedOut elapsed).2.procId = (ensure_alive s freshId).procId ∧
      (StataSession.execute s freshId tmpdir ts uuidHex code timeout dirB dirA
          .timedOut elapsed).2.procLive = (ensure_alive s freshId).procLive ∧
      (StataSession.execute s freshId tmpdir ts uuidHex code timeout dirB dirA
          .timedOut elapsed).2.is_alive = true ∧
      (StataSession.execute s freshId tmpdir ts uuidHex code timeout dirB dirA
          .timedOut elapsed).2.started = (ensure_alive s freshId).started ∧
      (StataSession.execute s freshId tmpdir ts uuidHex code timeout dirB dirA
          .timedOut elapsed).2.logBuf = s.logBuf := by
  intro s freshId tmpdir ts uuidHex code timeout dirB dirA elapsed
  refine ⟨rfl, rfl, rfl, ?_, rfl, ?_⟩
  · show (ensure_alive s freshId).is_alive = true
    unfold ensure_alive
    by_cases hc : s.is_alive = true
    · rw [if_pos hc]
      exact hc
    · rw [if_neg hc]
      rfl
  · exact ensure_alive_logBuf s freshId

/-- C5 (corrected).  The spec claims `strip_smcl` is idempotent on all
supported markup inputs; stripping can in fact uncover a fresh character
escape (for example removing an inner tag inside `\x7bc …\x7d`), which a
second pass then rewrites.  Amended: stripping is idempotent whenever the
stripped output contains no remaining SMCL character-escape or tag match. -/
theorem C5_strip_idem_conditional :
    ∀ x : PyStr, smclMatchFree (strip_smcl x) = true →
      strip_smcl (strip_smcl x) = strip_smcl x := by
  intro x h
  have hall := List.all_eq_true.mp h
  have hchar : ∀ t ∈ (strip_smcl x).tails, charEscAt t = none := by
    intro t ht
    have h2 := hall t ht
    rw [Bool.and_eq_true, Option.isNone_iff_eq_none, Option.isNone_iff_eq_none] at h2
    exact h2.1
  have htag : ∀ t ∈ (strip_smcl x).tails, tagAt t = none := by
    intro t ht
    have h2 := hall t ht
    rw [Bool.and_eq_true, Option.isNone_iff_eq_none, Option.isNone_iff_eq_none] at h2
    exact h2.2
  have hinner : scanSub charEscAt (strip_smcl x) = strip_smcl x :=
    scanSubF_of_clear charEscAt _ _ hchar
  have houter : scanSub tagAt (strip_smcl x) = strip_smcl x :=
    scanSubF_of_clear tagAt _ _ htag
  calc strip_smcl (strip_smcl x)
      = scanSub tagAt (scanSub charEscAt (strip_smcl x)) := rfl
    _ = scanSub tagAt (strip_smcl x) := by rw [hinner]
    _ = strip_smcl x := houter

/-- C5 witness: a spec example input whose stripped form is clean, so the
amended idempotence applies. -/
theorem C5_strip_idem_conditional_witness :
    smclMatchFree (strip_smcl (strLit "\x7bresult\x7dhello\x7btxt\x7d")) = true ∧
    strip_smcl (strip_smcl (strLit "\x7bresult\x7dhello\x7btxt\x7d")) =
      strip_smcl (strLit "\x7bresult\x7dhello\x7btxt\x7d") :=
  ⟨by decide, C5_strip_idem_conditional (strLit "\x7bresult\x7dhello\x7btxt\x7d") (by decide)⟩

/-- C5 counterexample: stripping `\x7bc\x7btxt\x7d |\x7d` once yields
`\x7bc |\x7d` (the inner tag is removed, exposing a fresh character escape);
stripping again yields `|`, so stripping twice differs from stripping
once. -/
theorem C5_strip_idem_cex :
    strip_smcl (strip_smcl (strLit "\x7bc\x7btxt\x7d |\x7d")) ≠
      strip_smcl (strLit "\x7bc\x7btxt\x7d |\x7d") := by
  decide

/-- C9 (confirmed).  `encode_graph` fails with `ValueError` when the
lower-cased extension is unsupported, and — separately, for a supported
extension — with `FileNotFoundError` when the file cannot be read; for a
successful encode of a non-PNG suffix both dimensions are absent, and for a
PNG suffix the encode always succeeds once the read does, with the
dimensions taken from the header parse, which returns absent values (rather
than failing) on any short or malformed header. -/
theorem C9_encode_graph_errors :
    (∀ (dir : DirState) (p : PyStr),
      (assocGet (pyLower (pathSuffix p)) SUPPORTED_EXTENSIONS).isSome = false →
        encode_graph dir p = .error .valueError) ∧
    (∀ (dir : DirState) (p : PyStr),
      (assocGet (pyLower (pathSuffix p)) SUPPORTED_EXTENSIONS).isSome = true →
        fsRead dir p = none → encode_graph dir p = .error .fileNotFound) ∧
    (∀ (dir : DirState) (p : PyStr) (a : GraphArtifact),
      encode_graph dir p = .ok a → pyLower (pathSuffix p) ≠ strLit ".png" →
        a.width = none ∧ a.height = none) ∧
    (∀ (dir : DirState) (p : PyStr) (raw : List Nat),
      pyLower (pathSuffix p) = strLit ".png" → fsRead dir p = some raw →
        encode_graph dir p = .ok ⟨p, strLit "png", base64Encode raw,
          (pngDimensions raw).1, (pngDimensions raw).2⟩) := by
  refine ⟨?_, ?_, ?_, ?_⟩
  · intro dir p h
    unfold encode_graph
    simp [h]
  · intro dir p hs hr
    unfold encode_graph
    rw [if_neg (by simp [hs]), hr]
  · intro dir p a h hpng
    unfold encode_graph at h
    by_cases hs : (assocGet (pyLower (pathSuffix p)) SUPPORTED_EXTENSIONS).isSome = true
    · rw [if_neg (by simp [hs])] at h
      cases hr : fsRead dir p with
      | none =>
        rw [hr] at h
        cases h
      | some raw =>
        rw [hr] at h
        simp only [if_neg hpng] at h
        cases h
        exact ⟨rfl, rfl⟩
    · rw [if_pos (by simpa using hs)] at h
      cases h
  · intro dir p raw hpng hr
    unfold encode_graph
    rw [hpng, hr]
    have hdw : (strLit ".png").dropWhile (fun c => c = '.') = strLit "png" := by decide
    rw [if_neg (by decide), hdw]
    simp

/-- C9 witness: the four behaviours at concrete files (`a.txt` unsupported;
`a.png` absent; `a.pdf` encoded without dimensions; `a.png` with a malformed
3-byte header encoded with absent dimensions). -/
theorem C9_encode_graph_errors_witness :
    encode_graph [] (strLit "a.txt") = .error .valueError ∧
    encode_graph [] (strLit "a.png") = .error .fileNotFound ∧
    ((⟨strLit "a.pdf", strLit "pdf", strLit "YQ==", none, none⟩ : GraphArtifact).width = none ∧
      (⟨strLit "a.pdf", strLit "pdf", strLit "YQ==", none, none⟩ : GraphArtifact).height = none) ∧
    encode_graph [⟨strLit "a.png", 1, [1, 2, 3]⟩] (strLit "a.png") =
      .ok ⟨strLit "a.png", strLit "png", base64Encode [1, 2, 3],
        (pngDimensions [1, 2, 3]).1, (pngDimensions [1, 2, 3]).2⟩ :=
  ⟨C9_encode_graph_errors.1 [] (strLit "a.txt") (by decide),
   C9_encode_graph_errors.2.1 [] (strLit "a.png") (by decide) (by decide),
   C9_encode_graph_errors.2.2.1 [⟨strLit "a.pdf", 1, [97]⟩] (strLit "a.pdf")
     ⟨strLit "a.pdf", strLit "pdf", strLit "YQ==", none, none⟩ (by decide) (by decide),
   C9_encode_graph_errors.2.2.2 [⟨strLit "a.png", 1, [1, 2, 3]⟩] (strLit "a.png")
     [1, 2, 3] (by decide) (by decide)⟩

/-- C10 (confirmed).  The extension check precedes any read: an unsupported
extension yields `ValueError` for every directory state, in particular when
the file does not exist; consequently `FileNotFoundError` can only arise for
a supported extension. -/
theorem C10_ext_check_before_read :
    (∀ (dir : DirState) (p : PyStr),
      (assocGet (pyLower (pathSuffix p)) SUPPORTED_EXTENSIONS).isSome = false →
        encode_graph dir p = .error .valueError) ∧
    (∀ (dir : DirState) (p : PyStr),
      encode_graph dir p = .error .fileNotFound →
        (assocGet (pyLower (pathSuffix p)) SUPPORTED_EXTENSIONS).isSome = true) := by
  constructor
  · intro dir p h
    unfold encode_graph
    simp [h]
  · intro dir p h
    by_cases hs : (assocGet (pyLower (pathSuffix p)) SUPPORTED_EXTENSIONS).isSome = true
    · exact hs
    · exfalso
      unfold encode_graph at h
      rw [if_pos (by simpa using hs)] at h
      simp at h

/-- C10 witness: an unsupported extension on a missing file still raises
`ValueError`; a supported extension on a missing file raises
`FileNotFoundError`. -/
theorem C10_ext_check_before_read_witness :
    encode_graph [] (strLit "missing.txt") = .error .valueError ∧
    (assocGet (pyLower (pathSuffix (strLit "a.png"))) SUPPORTED_EXTENSIONS).isSome = true :=
  ⟨C10_ext_check_before_read.1 [] (strLit "missing.txt") (by decide),
   C10_ext_check_before_read.2 [] (strLit "a.png") (by decide)⟩

/-! ## Lemmas for C4: stripping a line does not affect the `r(\d+)` token -/

/-- Whitespace characters are none of the characters of an error token. -/
theorem isPyWspace_facts {c : Char} (h : isPyWspace c = true) :
    c ≠ 'r' ∧ c ≠ '(' ∧ c ≠ ')' ∧ c.isDigit = false := by
  unfold isPyWspace at h
  simp only [Bool.or_eq_true, decide_eq_true_eq] at h
  rcases h with ((((h | h) | h) | h) | h) | h <;> subst h <;>
    exact ⟨by decide, by decide, by decide, by decide⟩

/-- The error token cannot start at a non-`r` character. -/
theorem codeTokAt_head_ne (c : Char) (t : PyStr) (hc : c ≠ 'r') :
    codeTokAt (c :: t) = none := by
  cases t with
  | nil => rfl
  | cons d t2 =>
    simp only [codeTokAt]
    rw [if_neg (fun hand => hc hand.1)]

/-- A run of whitespace contains no error token start. -/
theorem codeTokAt_allws (w : PyStr) (hw : ∀ c ∈ w, isPyWspace c = true) :
    codeTokAt w = none := by
  cases w with
  | nil => rfl
  | cons c w' => exact codeTokAt_head_ne c w' (isPyWspace_facts (hw c (by simp))).1

/-- Appending non-matching characters does not change a `takeWhile`. -/
theorem takeWhile_append_clear {p : Char → Bool} :
    ∀ (l w : PyStr), (∀ c ∈ w, p c = false) → (l ++ w).takeWhile p = l.takeWhile p := by
  intro l w hw
  induction l with
  | nil =>
    cases w with
    | nil => rfl
    | cons c w' =>
      simp [List.takeWhile_cons, hw c (by simp)]
  | cons a l ih =>
    simp only [List.cons_append, List.takeWhile_cons]
    cases p a <;> simp [ih]

/-- Appending trailing whitespace does not change the anchored token
match. -/
theorem codeTokAt_append_ws :
    ∀ (t w : PyStr), (∀ c ∈ w, isPyWspace c = true) → codeTokAt (t ++ w) = codeTokAt t := by
  intro t w hw
  match t with
  | [] =>
    rw [List.nil_append, codeTokAt_allws w hw]
    rfl
  | [r] =>
    by_cases hr : r = 'r'
    · subst hr
      cases hw2 : w with
      | nil => rfl
      | cons d w' =>
        have hd := (isPyWspace_facts (hw d (by simp [hw2]))).2.1
        show codeTokAt ('r' :: d :: w') = none
        simp only [codeTokAt]
        rw [if_neg (fun hand => hd hand.2)]
    · have hw1 : ([r] ++ w) = r :: w := by simp
      rw [hw1, codeTokAt_head_ne r w hr, codeTokAt_head_ne r [] hr]
  | r :: c :: r2 =>
    by_cases hrc : r = 'r' ∧ c = '('
    · obtain ⟨hr, hc⟩ := hrc
      subst hr; subst hc
      have hdig : ∀ d ∈ w, Char.isDigit d = false :=
        fun d hd => (isPyWspace_facts (hw d hd)).2.2.2
      have htw : (r2 ++ w).takeWhile Char.isDigit = r2.takeWhile Char.isDigit :=
        takeWhile_append_clear r2 w hdig
      show codeTokAt ('r' :: '(' :: (r2 ++ w)) = codeTokAt ('r' :: '(' :: r2)
      simp only [codeTokAt, and_self, if_true]
      simp only [htw]
      by_cases hempty : (r2.takeWhile Char.isDigit).isEmpty = true
      · rw [if_pos hempty, if_pos hempty]
      · rw [if_neg hempty, if_neg hempty]
        have hlen : (r2.takeWhile Char.isDigit).length ≤ r2.length :=
          (List.takeWhile_sublist Char.isDigit).length_le
        rw [List.drop_append_of_le_length hlen]
        cases hdrop : r2.drop (r2.takeWhile Char.isDigit).length with
        | nil =>
          cases hw2 : w with
          | nil => rfl
          | cons d w' =>
            have hd := (isPyWspace_facts (hw d (by simp [hw2]))).2.2.1
            simp only [List.nil_append]
            rw [if_neg hd]
        | cons d rest => rfl
    · have hne : ¬(r = 'r' ∧ c = '(') := hrc
      show codeTokAt (r :: c :: (r2 ++ w)) = codeTokAt (r :: c :: r2)
      simp only [codeTokAt]
      rw [if_neg hne, if_neg hne]

/-- Searching a pure-whitespace string finds no token. -/
theorem findCodeTok_allws : ∀ (w : PyStr), (∀ c ∈ w, isPyWspace c = true) →
    findCodeTok w = none := by
  intro w
  induction w with
  | nil => exact fun _ => rfl
  | cons c w' ih =>
    intro hw
    show (match codeTokAt (c :: w') with
      | some v => some v
      | none => findCodeTok w') = none
    rw [codeTokAt_head_ne c w' (isPyWspace_facts (hw c (by simp))).1]
    exact ih (fun d hd => hw d (by simp [hd]))

/-- Appending trailing whitespace does not change the leftmost token
search. -/
theorem findCodeTok_append_ws :
    ∀ (s w : PyStr), (∀ c ∈ w, isPyWspace c = true) →
      findCodeTok (s ++ w) = findCodeTok s := by
  intro s w hw
  induction s with
  | nil =>
    rw [List.nil_append, findCodeTok_allws w hw]
    rfl
  | cons c s' ih =>
    show (match codeTokAt (c :: (s' ++ w)) with
      | some v => some v
      | none => findCodeTok (s' ++ w)) =
      (match codeTokAt (c :: s') with
      | some v => some v
      | none => findCodeTok s')
    have := codeTokAt_append_ws (c :: s') w hw
    rw [List.cons_append] at this
    rw [this, ih]

/-- Removing leading whitespace does not change the leftmost token search. -/
theorem findCodeTok_lstrip (l : PyStr) : findCodeTok (pyLStrip l) = findCodeTok l := by
  unfold pyLStrip
  induction l with
  | nil => rfl
  | cons c l' ih =>
    by_cases hc : isPyWspace c = true
    · rw [List.dropWhile_cons_of_pos hc]
      rw [ih]
      show findCodeTok l' =
        (match codeTokAt (c :: l') with
        | some v => some v
        | none => findCodeTok l')
      rw [codeTokAt_head_ne c l' (isPyWspace_facts hc).1]
    · rw [List.dropWhile_cons_of_neg hc]

/-- Removing trailing whitespace does not change the leftmost token
search. -/
theorem findCodeTok_rstrip (s : PyStr) : findCodeTok (pyRStrip s) = findCodeTok s := by
  have hsplit : s = pyRStrip s ++ (s.reverse.takeWhile isPyWspace).reverse := by
    conv_lhs => rw [← List.reverse_reverse s,
      ← List.takeWhile_append_dropWhile (p := isPyWspace) (l := s.reverse)]
    rw [List.reverse_append]
    rfl
  have hws : ∀ c ∈ (s.reverse.takeWhile isPyWspace).reverse, isPyWspace c = true := by
    intro c hc
    rw [List.mem_reverse] at hc
    exact List.mem_takeWhile_imp hc
  conv_rhs => rw [hsplit]
  rw [findCodeTok_append_ws _ _ hws]

/-- Stripping a line does not change whether (or where first) the error
token occurs. -/
theorem findCodeTok_pyStrip (l : PyStr) : findCodeTok (pyStrip l) = findCodeTok l := by
  unfold pyStrip
  rw [findCodeTok_rstrip, findCodeTok_lstrip]

/-- The collected `error_msg_parts` are exactly the stripped non-blank lines
preceding the first token-bearing line. -/
theorem msgParts_eq : ∀ ls : List PyStr,
    msgParts ls =
      ((ls.takeWhile (fun l => (findCodeTok l).isNone)).map pyStrip).filter
        (fun st => !st.isEmpty) := by
  intro ls
  induction ls with
  | nil => rfl
  | cons l rest ih =>
    show (if (findCodeTok (pyStrip l)).isSome then []
      else if (pyStrip l).isEmpty then msgParts rest
      else pyStrip l :: msgParts rest) = _
    rw [findCodeTok_pyStrip]
    by_cases htok : (findCodeTok l).isSome = true
    · rw [if_pos htok]
      have hfalse : (findCodeTok l).isNone = false := by
        cases hval : findCodeTok l with
        | none => rw [hval] at htok; cases htok
        | some v => rfl
      rw [List.takeWhile_cons_of_neg (by simp [hfalse])]
      rfl
    · rw [if_neg htok]
      rw [List.takeWhile_cons_of_pos (by simpa using htok)]
      rw [List.map_cons, List.filter_cons]
      by_cases hempty : (pyStrip l).isEmpty = true
      · rw [if_pos hempty, ih]
        simp [hempty]
      · rw [if_neg hempty, ih]
        simp [hempty]

/-- C4 (confirmed).  For text containing a coded failure token (and in
particular also a phrase-match failure), `_detect_error` returns the code
parsed from the leftmost `r(\d+)` token — never `None` and never a code from
the phrase branch — and the message is the stripped content of the last
non-blank line preceding the first line containing such a token, with the
generic `Stata error r(<code>)` fallback when no such line exists. -/
theorem C4_coded_precedence :
    ∀ (output : PyStr) (c : Nat), findCodeTok output = some c →
      (phraseScan ERROR_PATTERNS_TAIL output).isSome = true →
      detect_error output =
        (some ((lastNonBlankBefore output).getD (genericCodeMsg c)), some c) := by
  intro output c hc _hp
  unfold detect_error
  rw [hc]
  rw [msgParts_eq]
  unfold lastNonBlankBefore genericCodeMsg
  cases hL : ((((pySplitlines output).takeWhile
      (fun l => (findCodeTok l).isNone)).map pyStrip).filter
        (fun st => !st.isEmpty)).getLast? with
  | none => simp [hL]
  | some m => simp [hL]

/-- C4 witness: a text holding both the phrase `no observations` and the
token `r(2000)`; the code comes from the token and the message is the
preceding non-blank line. -/
theorem C4_coded_precedence_witness :
    detect_error (strLit "no observations\nr(2000)") =
      (some ((lastNonBlankBefore (strLit "no observations\nr(2000)")).getD
        (genericCodeMsg 2000)), some 2000) :=
  C4_coded_precedence (strLit "no observations\nr(2000)") 2000 (by decide) (by decide)

/-! ## Lemmas for C6: the artifact cache's change detection -/

/-- Lookup misses when the key is absent. -/
theorem assocGet_eq_none {α : Type} (l : List (PyStr × α)) (p : PyStr)
    (h : ∀ q ∈ l, q.1 ≠ p) : assocGet p l = none := by
  induction l with
  | nil => rfl
  | cons q rest ih =>
    obtain ⟨k, v⟩ := q
    show (if p = k then some v else assocGet p rest) = none
    rw [if_neg fun he => h (k, v) (List.mem_cons_self _ _) he.symm]
    exact ih fun q hq => h q (List.mem_cons_of_mem _ hq)

/-- Lookup in a duplicate-free association list returns the stored value. -/
theorem assocGet_of_nodup {α : Type} :
    ∀ (l : List (PyStr × α)) (p : PyStr) (m : α),
      (l.map Prod.fst).Nodup → (p, m) ∈ l → assocGet p l = some m := by
  intro l
  induction l with
  | nil =>
    intro p m _ hmem
    cases hmem
  | cons q rest ih =>
    intro p m hnodup hmem
    obtain ⟨k, v⟩ := q
    rw [List.map_cons] at hnodup
    have hsplit := List.nodup_cons.mp hnodup
    show (if p = k then some v else assocGet p rest) = some m
    by_cases hpk : p = k
    · rw [if_pos hpk]
      rcases List.mem_cons.mp hmem with heq | htail
      · cases heq
        rfl
      · exfalso
        have hp : p ∈ rest.map Prod.fst := List.mem_map_of_mem Prod.fst htail
        rw [hpk] at hp
        exact hsplit.1 hp
    · rw [if_neg hpk]
      rcases List.mem_cons.mp hmem with heq | htail
      · cases heq
        exact absurd rfl hpk
      · exact ih p m hsplit.2 htail

/-- Every path already recorded at its current mtime is skipped by the
change check. -/
theorem filterMap_changeCheck_skip (snap : List (PyStr × ℚ)) (dir : DirState) :
    ∀ l : List (PyStr × ℚ), (∀ pm ∈ l, assocGet pm.1 snap = some pm.2) →
      l.filterMap (changeCheck snap dir) = [] := by
  intro l h
  induction l with
  | nil => rfl
  | cons pm rest ih =>
    rw [List.filterMap_cons]
    have hcc : changeCheck snap dir pm = none := by
      unfold changeCheck
      rw [h pm (List.mem_cons_self _ _)]
      exact if_neg (lt_irrefl pm.2)
    rw [hcc]
    exact ih fun q hq => h q (List.mem_cons_of_mem _ hq)

/-- Scan entries come from directory files with a supported-extension
match. -/
theorem scanDir_mem (dir : DirState) (pm : PyStr × ℚ) (h : pm ∈ scanDir dir) :
    ∃ g ∈ dir, pm = (g.name, g.mtime) ∧
      ∃ e ∈ supportedExts, strEndsWith g.name e = true := by
  unfold scanDir at h
  rw [List.mem_flatten] at h
  obtain ⟨bkt, hbkt, hpm⟩ := h
  rw [List.mem_map] at hbkt
  obtain ⟨e, he, hbe⟩ := hbkt
  rw [← hbe] at hpm
  unfold bucket at hpm
  rw [List.mem_map] at hpm
  obtain ⟨g, hg, hge⟩ := hpm
  have hgf := List.mem_filter.mp hg
  exact ⟨g, hgf.1, hge.symm, e, he, hgf.2⟩

/-- A directory file matching a supported extension appears in the scan. -/
theorem scanDir_mem_of (dir : DirState) (g : DirFile) (e : PyStr)
    (he : e ∈ supportedExts) (hg : g ∈ dir) (hend : strEndsWith g.name e = true) :
    (g.name, g.mtime) ∈ scanDir dir := by
  unfold scanDir
  rw [List.mem_flatten]
  refine ⟨bucket dir e, List.mem_map_of_mem _ he, ?_⟩
  unfold bucket
  exact List.mem_map_of_mem _ (List.mem_filter.mpr ⟨hg, hend⟩)

/-- With duplicate-free keys, a `filterMap` that fires on exactly one key
produces exactly that one result. -/
theorem filterMap_key_unique {β : Type} (g : PyStr × ℚ → Option β) :
    ∀ (l : List (PyStr × ℚ)) (x : PyStr × ℚ) (b : β),
      (l.map Prod.fst).Nodup → x ∈ l → g x = some b →
      (∀ y ∈ l, y.1 ≠ x.1 → g y = none) →
      l.filterMap g = [b] := by
  intro l
  induction l with
  | nil =>
    intro x b _ hx
    cases hx
  | cons y rest ih =>
    intro x b hnodup hx hgx hother
    rw [List.map_cons] at hnodup
    have hsplit := List.nodup_cons.mp hnodup
    rw [List.filterMap_cons]
    rcases List.mem_cons.mp hx with heq | htail
    · subst heq
      rw [hgx]
      have hrest : ∀ z ∈ rest, g z = none := by
        intro z hz
        refine hother z (List.mem_cons_of_mem _ hz) ?_
        intro hzx
        exact hsplit.1 (hzx ▸ List.mem_map_of_mem Prod.fst hz)
      rw [List.filterMap_eq_nil_iff.mpr hrest]
    · have hyx : y.1 ≠ x.1 := by
        intro he
        exact hsplit.1 (he ▸ List.mem_map_of_mem Prod.fst htail)
      rw [hother y (List.mem_cons_self _ _) hyx]
      exact ih x b hsplit.2 htail hgx fun z hz => hother z (List.mem_cons_of_mem _ hz)

/-- The scan of a directory is a sublist of the scan after a file is
added. -/
theorem scanDir_append_sublist (dir₀ : DirState) (f : DirFile) :
    (scanDir dir₀).Sublist (scanDir (dir₀ ++ [f])) := by
  have hb : ∀ e, bucket (dir₀ ++ [f]) e = bucket dir₀ e ++ bucket [f] e := by
    intro e
    unfold bucket
    rw [List.filter_append, List.map_append]
  show (List.map (bucket dir₀) supportedExts).flatten.Sublist
    (List.map (bucket (dir₀ ++ [f])) supportedExts).flatten
  unfold supportedExts SUPPORTED_EXTENSIONS
  simp only [List.map_cons, List.map_map, List.map_nil, List.flatten_cons, List.flatten_nil]
  rw [hb, hb, hb, hb]
  exact (List.sublist_append_left _ _).append ((List.sublist_append_left _ _).append
    ((List.sublist_append_left _ _).append ((List.sublist_append_left _ _).append
      (List.Sublist.refl []))))

/-- C6 (confirmed).  After a snapshot, adding exactly one new supported
graph file and detecting: the stored snapshot is replaced wholesale by the
fresh scan (whether or not the encode succeeded), the new file's artifact
appears exactly once when its encode succeeds, and a second detection with
no further changes returns no artifacts. -/
theorem C6_detect_changes_once_then_empty :
    ∀ (dir₀ : DirState) (f : DirFile) (e : PyStr) (a : GraphArtifact),
      (∀ g ∈ dir₀, g.name ≠ f.name) →
      e ∈ supportedExts →
      strEndsWith f.name e = true →
      ((scanDir (dir₀ ++ [f])).map Prod.fst).Nodup →
      ((detect_changes (take_snapshot dir₀) (dir₀ ++ [f])).2 = scanDir (dir₀ ++ [f])) ∧
      (encode_graph (dir₀ ++ [f]) f.name = .ok a →
        (detect_changes (take_snapshot dir₀) (dir₀ ++ [f])).1 = [a]) ∧
      ((detect_changes (scanDir (dir₀ ++ [f])) (dir₀ ++ [f])).1 = []) := by
  intro dir₀ f e a hnew he hend hkeys
  have hsub := scanDir_append_sublist dir₀ f
  have hkeys₀ : ((scanDir dir₀).map Prod.fst).Nodup :=
    List.Nodup.sublist (List.Sublist.map Prod.fst hsub) hkeys
  refine ⟨rfl, ?_, ?_⟩
  · intro henc
    show (scanDir (dir₀ ++ [f])).filterMap
      (changeCheck (scanDir dir₀) (dir₀ ++ [f])) = [a]
    refine filterMap_key_unique _ _ (f.name, f.mtime) a hkeys ?_ ?_ ?_
    · exact scanDir_mem_of (dir₀ ++ [f]) f e he (by simp) hend
    · have hmiss : assocGet (f.name, f.mtime).1 (scanDir dir₀) = none := by
        apply assocGet_eq_none
        intro q hq
        obtain ⟨g, hg, hgq, _⟩ := scanDir_mem dir₀ q hq
        rw [hgq]
        exact hnew g hg
      unfold changeCheck
      rw [hmiss, henc]
      rfl
    · intro y hy hyne
      obtain ⟨g, hg, hgy, e', he', hge⟩ := scanDir_mem (dir₀ ++ [f]) y hy
      have hgdir : g ∈ dir₀ := by
        rcases List.mem_append.mp hg with h0 | h1
        · exact h0
        · exfalso
          have hgf : g = f := by simpa using h1
          exact hyne (by rw [hgy, hgf])
      have hy0 : (g.name, g.mtime) ∈ scanDir dir₀ :=
        scanDir_mem_of dir₀ g e' he' hgdir hge
      have hget : assocGet y.1 (scanDir dir₀) = some y.2 := by
        rw [hgy]
        exact assocGet_of_nodup _ g.name g.mtime hkeys₀ hy0
      unfold changeCheck
      rw [hget]
      exact if_neg (lt_irrefl y.2)
  · show (scanDir (dir₀ ++ [f])).filterMap
      (changeCheck (scanDir (dir₀ ++ [f])) (dir₀ ++ [f])) = []
    apply filterMap_changeCheck_skip
    intro pm hpm
    exact assocGet_of_nodup _ pm.1 pm.2 hkeys (Prod.mk.eta ▸ hpm)

/-- C6 witness: one prior pdf, one new png; the png's artifact is detected
exactly once, the snapshot is replaced, and a second detection is empty. -/
theorem C6_detect_changes_once_then_empty_witness :
    ((detect_changes (take_snapshot [⟨strLit "old.pdf", 1, [97]⟩])
        ([⟨strLit "old.pdf", 1, [97]⟩] ++ [⟨strLit "new.png", 2, [97]⟩])).2 =
      scanDir ([⟨strLit "old.pdf", 1, [97]⟩] ++ [⟨strLit "new.png", 2, [97]⟩])) ∧
    ((detect_changes (take_snapshot [⟨strLit "old.pdf", 1, [97]⟩])
        ([⟨strLit "old.pdf", 1, [97]⟩] ++ [⟨strLit "new.png", 2, [97]⟩])).1 =
      [⟨strLit "new.png", strLit "png", strLit "YQ==", none, none⟩]) ∧
    ((detect_changes (scanDir ([⟨strLit "old.pdf", 1, [97]⟩] ++ [⟨strLit "new.png", 2, [97]⟩]))
        ([⟨strLit "old.pdf", 1, [97]⟩] ++ [⟨strLit "new.png", 2, [97]⟩])).1 = []) := by
  have h := C6_detect_changes_once_then_empty [⟨strLit "old.pdf", 1, [97]⟩]
    ⟨strLit "new.png", 2, [97]⟩ (strLit ".png")
    ⟨strLit "new.png", strLit "png", strLit "YQ==", none, none⟩
    (by decide) (by decide) (by decide) (by decide)
  exact ⟨h.1, h.2.1 (by decide), h.2.2⟩

end StataAI
